import Mathlib

/-!
Verification of the restaurant Instagram discovery and confidence-scoring
engine (`web_search.py`, `run_full_system_extract.py` /
`run_full_system_golden.py`).

The Python code is embedded shallowly:
* pure string manipulation is re-implemented over `List Char` with Python
  semantics (`str.split()`, `in`, `strip`, `lower`, `replace`);
* floats are modelled as exact rationals (`ℚ`), with `round(x, 1)` modelled
  as half-to-even rounding of `10 * x`;
* network effects (HTTP fetches of the Instagram profile page, search
  adapters, the LLM verification call) are modelled as explicit outcome
  values passed in as parameters, so every function stays executable;
* `difflib.SequenceMatcher(...).ratio()` is the one sub-computation that is
  not re-implemented: its value enters as an explicit rational parameter of
  the scoring environment (documented at each use).
-/

namespace RxMedia

/-! ## Python string semantics over `List Char` -/

/-- Python `str.lower()` for the ASCII strings used by the code. -/
def pyLower (l : List Char) : List Char := l.map Char.toLower

/-- Python `str.strip()`: drop leading and trailing whitespace. -/
def pyStrip (l : List Char) : List Char :=
  ((l.dropWhile Char.isWhitespace).reverse.dropWhile Char.isWhitespace).reverse

/-- Auxiliary accumulator for `pySplit`; `cur` holds the current word
reversed. -/
def pySplitAux : List Char → List Char → List (List Char)
  | cur, [] => if cur = [] then [] else [cur.reverse]
  | cur, c :: rest =>
    if c.isWhitespace then
      if cur = [] then pySplitAux [] rest else cur.reverse :: pySplitAux [] rest
    else pySplitAux (c :: cur) rest

/-- Python `str.split()` (no argument): split on runs of whitespace,
discarding empty words. -/
def pySplit (l : List Char) : List (List Char) := pySplitAux [] l

/-- Python substring test `pat in s`. -/
def pyIn (pat : List Char) : List Char → Bool
  | [] => pat.isEmpty
  | c :: rest => pat.isPrefixOf (c :: rest) || pyIn pat rest

/-- Fuel-driven worker for `pyReplace`; the fuel is the input length, which
is always sufficient because every step consumes at least one character. -/
def pyReplaceAux (pat rep : List Char) : ℕ → List Char → List Char
  | 0, l => l
  | _ + 1, [] => []
  | fuel + 1, c :: rest =>
    if pat.isPrefixOf (c :: rest) then
      rep ++ pyReplaceAux pat rep fuel ((c :: rest).drop pat.length)
    else c :: pyReplaceAux pat rep fuel rest

/-- Python `str.replace(pat, rep)` for a non-empty pattern (every pattern
the code replaces is non-empty; the empty pattern is passed through). -/
def pyReplace (l pat rep : List Char) : List Char :=
  if pat = [] then l else pyReplaceAux pat rep l.length l

/-- Python `round(x, 1)` on exact rationals: rounding of `10 * x` half to
even, divided by ten again. -/
def roundHalfEven (x : ℚ) : ℤ :=
  let f := ⌊x⌋
  let r := x - f
  if r < 1/2 then f
  else if 1/2 < r then f + 1
  else if 2 ∣ f then f else f + 1

/-- Python `round(x, 1)` as used by `_calculate_confidence_score`. -/
def pythonRound1 (x : ℚ) : ℚ := (roundHalfEven (10 * x) : ℚ) / 10

/-! ## Environment types: outcomes of network and LLM effects -/

/-- Outcome of an HTTP fetch performed through `self.session.get`: either a
response with a status code and body text, or a raised network exception. -/
inductive FetchOutcome where
  | success (code : ℕ) (text : String)
  | netError (msg : String)
deriving DecidableEq, Repr

/-- Outcome of the LLM plausibility call inside `_ai_verify_handle`: either
the parsed JSON judgment (plausibility flag, confidence, reason) or a raised
exception whose message is `err`. -/
inductive LLMOutcome where
  | judgment (plausibility : Bool) (conf : ℚ) (reason : String)
  | failure (err : String)
deriving DecidableEq, Repr

/-- The fields of `self._last_validation_data` that
`_calculate_location_strength` reads (populated by the Firecrawl adapter). -/
structure ValidationData where
  google_my_business_found : Bool
  location_matches : List String
  yelp_found : Bool
  tripadvisor_found : Bool
deriving DecidableEq, Repr

/-- External-world inputs consumed by one run of
`_calculate_confidence_score`:
* `similarity` is `difflib.SequenceMatcher(None, handle_clean,
  name_clean).ratio()` from `_calculate_name_similarity`;
* `profileFetch` is the profile-page fetch in `_perform_basic_validation`;
* `validationData` is `self._last_validation_data` when set;
* `geoRedFlags` / `bioRedFlags` are the counts returned by the
  HTTP-dependent `_check_geographic_content` / `_check_bio_content`. -/
structure ScoringEnv where
  similarity : ℚ
  profileFetch : FetchOutcome
  validationData : Option ValidationData
  geoRedFlags : ℕ
  bioRedFlags : ℕ
deriving DecidableEq, Repr

/-! ## Embedded scoring functions from `web_search.py` -/

/-- Embeds `_get_confidence_grade`. -/
def get_confidence_grade (score : ℚ) : String :=
  if 80 ≤ score then "High"
  else if 50 ≤ score then "Medium"
  else "Low"

/-- Embeds `_incorporate_ai_confidence`. -/
def incorporate_ai_confidence (base_score ai_confidence : ℚ) (ai_verified : Bool) : ℚ :=
  if ai_confidence = 0 then base_score
  else
    let ai_weight : ℚ := 3/10
    let ai_contribution : ℚ :=
      if ai_verified then ai_confidence * 100 * ai_weight
      else -((1 - ai_confidence) * 100 * ai_weight)
    max 0 (min 100 (base_score + ai_contribution))

/-- Spam tokens checked by `_evaluate_handle_quality`. -/
def spam_patterns : List (List Char) :=
  ["official", "real", "authentic", "123", "000", "xxx"].map String.toList

/-- Embeds `_evaluate_handle_quality` (pure string heuristics, 0-25 points). -/
def evaluate_handle_quality (handle restaurant_name : String) : ℚ :=
  let h := handle.toList
  let handle_lower := pyLower h
  let lengthPts : ℚ := if 3 ≤ h.length ∧ h.length ≤ 30 then 5 else 0
  let special_char_count := (h.filter (fun c => c = '.' ∨ c = '_')).length
  let specialPts : ℚ :=
    if special_char_count ≤ 2 then 5 else if special_char_count ≤ 4 then 2 else 0
  let spamPts : ℚ := if spam_patterns.any (fun p => pyIn p handle_lower) then 0 else 5
  let name_words :=
    ((pySplit restaurant_name.toList).filter (fun w => 2 < w.length)).map pyLower
  let matching_words := (name_words.filter (fun w => pyIn w handle_lower)).length
  let matchPts : ℚ := if 0 < matching_words then min ((matching_words : ℚ) * 3) 10 else 0
  lengthPts + specialPts + spamPts + matchPts

/-- Embeds `_calculate_name_similarity` (0-20 points).  Here `similarity` stands for
`difflib.SequenceMatcher(None, handle_clean, name_clean).ratio()`, a value
in `[0, 1]` supplied by the environment. -/
def calculate_name_similarity (similarity : ℚ) (handle restaurant_name : String) : ℚ :=
  let name_words := (pySplit (pyLower restaurant_name.toList)).filter (fun w => 2 < w.length)
  let word_matches :=
    (name_words.filter (fun w => pyIn w (pyLower handle.toList))).length
  let word_coverage : ℚ :=
    if name_words.length = 0 then 0 else (word_matches : ℚ) / (name_words.length : ℚ)
  (similarity * (6/10) + word_coverage * (4/10)) * 20

/-- Restaurant-domain keywords checked by `_perform_basic_validation`. -/
def restaurant_keywords : List (List Char) :=
  ["restaurant", "food", "eat", "menu", "kitchen", "cafe", "bar", "dine"].map String.toList

/-- Embeds `_perform_basic_validation` (0-15 points), parameterized by the outcome
of fetching `instagram.com/{handle}/`. -/
def perform_basic_validation (fetch : FetchOutcome) (handle restaurant_name : String) : ℚ :=
  match fetch with
  | .netError _ => 5
  | .success code text =>
    if code = 200 then
      let content := pyLower text.toList
      let name_words :=
        ((pySplit restaurant_name.toList).filter (fun w => 2 < w.length)).map pyLower
      let keyword_matches := (restaurant_keywords.filter (fun k => pyIn k content)).length
      let keywordPts : ℚ := if 0 < keyword_matches then 3 else 0
      let name_matches := (name_words.filter (fun w => pyIn w content)).length
      let namePts : ℚ := if 0 < name_matches then 2 else 0
      10 + keywordPts + namePts
    else if code = 429 then 8
    else 0

/-- Embeds `_calculate_location_strength`. -/
def calculate_location_strength (vd : ValidationData) : ℕ :=
  let s := (if vd.google_my_business_found then 3 else 0)
    + vd.location_matches.dedup.length
    + (if vd.yelp_found then 1 else 0)
    + (if vd.tripadvisor_found then 1 else 0)
  min s 10

/-- Regional bonus tokens of `_analyze_handle_pattern`. -/
def boston_tokens : List (List Char) :=
  ["boston", "ma", "cambridge", "beacon", "allston"].map String.toList

/-- Suspicious authenticity-claiming tokens of `_analyze_handle_pattern`. -/
def suspicious_tokens : List (List Char) :=
  ["_official", "_real", "_authentic"].map String.toList

/-- Embeds `_analyze_handle_pattern` (pure string heuristics). -/
def analyze_handle_pattern (handle restaurant_name : String) : ℚ :=
  let handle_lower := pyLower handle.toList
  let name_lower := pyReplace (pyLower restaurant_name.toList) [Char.ofNat 39] []
  let name_parts :=
    pyStrip (pyReplace (pyReplace (pyReplace name_lower "restaurant".toList [])
      "kitchen".toList []) "cafe".toList [])
  let name_words := (pySplit name_parts).filter (fun w => 2 < w.length)
  if name_words = [] then 1/2
  else
    let matchCount := (name_words.filter (fun w => pyIn w handle_lower)).length
    let base_score : ℚ := (matchCount : ℚ) / (name_words.length : ℚ)
    let withBonus :=
      if boston_tokens.any (fun w => pyIn w handle_lower) then base_score + 1/5
      else base_score
    let withPenalty :=
      if suspicious_tokens.any (fun w => pyIn w handle_lower) then withBonus - 3/10
      else withBonus
    min withPenalty 1

/-- The two fields of the dict returned by `_enhanced_verification` that the
caller reads (the log-message lists are elided). -/
structure EnhancedResult where
  verified : Bool
  confidence_adjustment : ℚ
deriving DecidableEq, Repr

/-- The accumulated confidence_adjustment entry of
`_enhanced_verification`, as a function of the base confidence, the
location-strength score, the geographic and bio red-flag counts, and the
handle-pattern score. -/
def enhanced_adjustment (confidence_score : ℚ) (location_score : ℕ)
    (geo_red_flags bio_red_flags : ℕ) (pattern_score : ℚ) : ℚ :=
  (if confidence_score < 70 then -15 else 0)
    + (if location_score < 2 then -10 else 0)
    + (if 0 < geo_red_flags then -((geo_red_flags : ℚ) * 15) else 0)
    + (if 0 < bio_red_flags then -((bio_red_flags : ℚ) * 10) else 0)
    + (if pattern_score < 1/5 then -10 else 0)

/-- Embeds `_enhanced_verification`, parameterized by the outputs of its
HTTP-dependent helpers: `location_score` is
`_calculate_location_strength(validation_data)`, `geo_red_flags` is
`_check_geographic_content(...)`, `bio_red_flags` is
`_check_bio_content(...)`, `pattern_score` is
`_analyze_handle_pattern(...)`. -/
def enhanced_verification (confidence_score : ℚ) (location_score : ℕ)
    (geo_red_flags bio_red_flags : ℕ) (pattern_score : ℚ) : EnhancedResult :=
  let adj := enhanced_adjustment confidence_score location_score
    geo_red_flags bio_red_flags pattern_score
  let total_red_flags := geo_red_flags + bio_red_flags
  let adjusted_confidence := confidence_score + adj
  let verified : Bool :=
    if 3 ≤ total_red_flags then false
    else if 2 ≤ geo_red_flags then false
    else if adjusted_confidence < 40 then false
    else if confidence_score < 65 ∧ 2 ≤ total_red_flags then false
    else true
  { verified := verified, confidence_adjustment := adj }

/-- The five additive factors of `_calculate_confidence_score` before the
percentage conversion (the variable `score` right before
`confidence_percentage` is computed). -/
def base_points (env : ScoringEnv) (restaurant_name handle corp_handle status : String) : ℚ :=
  (if corp_handle ≠ "" then 15 else if handle ≠ "" then 30 else 0)
    + evaluate_handle_quality handle restaurant_name
    + calculate_name_similarity env.similarity handle restaurant_name
    + perform_basic_validation env.profileFetch handle restaurant_name
    + (if status = "ok" then 10 else if status = "probable" then 5 else 0)

/-- The pre-rounding confidence percentage of `_calculate_confidence_score`:
the value of `confidence_percentage` at the point where
`_get_confidence_grade` is applied to it (0 when there is no handle or the
enhanced verification rejected the candidate). -/
def confidence_pre_round (env : ScoringEnv)
    (restaurant_name handle corp_handle status : String) : ℚ :=
  if handle = "" then 0
  else
    let pct := min (base_points env restaurant_name handle corp_handle status / 100 * 100) 100
    match env.validationData with
    | none => pct
    | some vd =>
      let er := enhanced_verification pct (calculate_location_strength vd)
        env.geoRedFlags env.bioRedFlags (analyze_handle_pattern handle restaurant_name)
      if er.verified then max 0 (min 100 (pct + er.confidence_adjustment)) else 0

/-- Embeds `_calculate_confidence_score` (the address and phone arguments only feed
the HTTP-dependent helpers, whose outputs live in `env`).  Returns the
`(round(confidence_percentage, 1), confidence_grade)` pair of the source;
note that the grade is computed from the percentage BEFORE rounding. -/
def calculate_confidence_score (env : ScoringEnv)
    (restaurant_name handle corp_handle status : String) : ℚ × String :=
  if handle = "" then (0, "Low")
  else
    let pct := min (base_points env restaurant_name handle corp_handle status / 100 * 100) 100
    match env.validationData with
    | none => (pythonRound1 pct, get_confidence_grade pct)
    | some vd =>
      let er := enhanced_verification pct (calculate_location_strength vd)
        env.geoRedFlags env.bioRedFlags (analyze_handle_pattern handle restaurant_name)
      let pct2 := max 0 (min 100 (pct + er.confidence_adjustment))
      if er.verified then (pythonRound1 pct2, get_confidence_grade pct2)
      else (0, "Low")

/-- Embeds `_ai_verify_handle`, parameterized by the outcome of the LLM call.  On a
parsed judgment it returns the tuple (plausibility and conf at least min_confidence, conf,
reason)`; on any raised exception it returns the soft pass
`(True, 1.0, "AI verify skipped: ...")`. -/
def ai_verify_handle (min_confidence : ℚ) (outcome : LLMOutcome) : Bool × ℚ × String :=
  match outcome with
  | .judgment plausibility conf reason => (plausibility ∧ conf ≥ min_confidence, conf, reason)
  | .failure err => (true, 1, "AI verify skipped: " ++ err)

/-- Embeds `_verify_instagram_handle`: the source currently bypasses the keyword
verification entirely ("accept any found handle (experiment to measure
impact)") and unconditionally returns `True`. -/
def verify_instagram_handle (handle restaurant_name : String) : Bool := true

/-- The scoring tail of `_process_single_row`: the confidence score/grade
after the optional AI incorporation (`use_ai` is
`settings.use_ai_verification and settings.openai_api_key`; `aiOutcome` is
the outcome of the LLM call for this row). -/
def final_confidence (min_confidence : ℚ) (env : ScoringEnv)
    (restaurant_name handle corp_handle status : String)
    (use_ai : Bool) (aiOutcome : LLMOutcome) : ℚ × String :=
  let sg := calculate_confidence_score env restaurant_name handle corp_handle status
  if use_ai ∧ handle ≠ "" then
    let v := ai_verify_handle min_confidence aiOutcome
    let s := incorporate_ai_confidence sg.1 v.2.1 v.1
    (s, get_confidence_grade s)
  else sg

/-! ## The strategy orchestrator (`find_instagram_handle`) -/

/-- Outcome of invoking one search-strategy adapter: a candidate handle
(together with the LLM outcome its verification call would see), no result,
or a raised exception (caught by the orchestrator). -/
inductive AdapterResult where
  | found (handle : String) (ai : LLMOutcome)
  | nothing
  | raises (msg : String)
deriving DecidableEq, Repr

/-- A record of which code paths the orchestrator invoked: primary strategy
number `i`, simplified-name fallback strategy number `i`, or the (removed)
corporate-handle path. -/
inductive CallTag where
  | primary (i : ℕ)
  | simplifiedCall (i : ℕ)
  | corporate
deriving DecidableEq, Repr

/-- The candidate a single adapter outcome contributes after verification,
mirroring the body of the primary strategy loop: a handle is returned when
the adapter found one and `html_ok or ai_ok` holds. -/
def passing_candidate (use_ai : Bool) (min_confidence : ℚ) (restaurant_name : String) :
    AdapterResult → Option String
  | .found h ai =>
    if verify_instagram_handle h restaurant_name
        || (if use_ai then (ai_verify_handle min_confidence ai).1 else true) then some h
    else none
  | .nothing => none
  | .raises _ => none

/-- The primary strategy loop of `find_instagram_handle`, instrumented with
the list of strategy indices it invokes (`i` is the index of the current
head).  Exceptions and empty results fall through to the next strategy; a
found candidate is verified (`html_ok or ai_ok`) and returned on success. -/
def runPrimary (use_ai : Bool) (min_confidence : ℚ) (restaurant_name : String) :
    ℕ → List AdapterResult → Option String × List ℕ
  | _, [] => (none, [])
  | i, r :: rest =>
    match r with
    | .found h ai =>
      let html_ok := verify_instagram_handle h restaurant_name
      let ai_ok := if use_ai then (ai_verify_handle min_confidence ai).1 else true
      if html_ok || ai_ok then (some h, [i])
      else
        let p := runPrimary use_ai min_confidence restaurant_name (i + 1) rest
        (p.1, i :: p.2)
    | .nothing =>
      let p := runPrimary use_ai min_confidence restaurant_name (i + 1) rest
      (p.1, i :: p.2)
    | .raises _ =>
      let p := runPrimary use_ai min_confidence restaurant_name (i + 1) rest
      (p.1, i :: p.2)

/-- The simplified-name fallback loop (`strategies[:3]` re-run with the
simplified name); its candidates are verified with the HTML check only. -/
def runSimplified (restaurant_name : String) :
    ℕ → List AdapterResult → Option String × List ℕ
  | _, [] => (none, [])
  | i, r :: rest =>
    match r with
    | .found h _ =>
      if verify_instagram_handle h restaurant_name then (some h, [i])
      else
        let p := runSimplified restaurant_name (i + 1) rest
        (p.1, i :: p.2)
    | .nothing =>
      let p := runSimplified restaurant_name (i + 1) rest
      (p.1, i :: p.2)
    | .raises _ =>
      let p := runSimplified restaurant_name (i + 1) rest
      (p.1, i :: p.2)

/-- Python `restaurant_name.split` at the first parenthesis, stripped. -/
def simple_name (restaurant_name : String) : String :=
  String.mk (pyStrip (restaurant_name.toList.takeWhile (fun c => c ≠ '(')))

/-- The adapter outcomes the environment holds in store for one discovery
run: the primary strategies (in priority order) and the same strategies
re-invoked with the simplified name. -/
structure OrchestraEnv where
  primary : List AdapterResult
  simplified : List AdapterResult
deriving DecidableEq, Repr

/-- Embeds `find_instagram_handle`: primary strategy loop, then the simplified-name
fallback over the top three strategies; the corporate/global fallback was
removed from the source ("Fallback 2 removed"), so no further path exists.
Returns the discovered handle together with the invoked call tags. -/
def find_instagram_handle (use_ai : Bool) (min_confidence : ℚ)
    (restaurant_name : String) (env : OrchestraEnv) : Option String × List CallTag :=
  let p := runPrimary use_ai min_confidence restaurant_name 0 env.primary
  match p.1 with
  | some h => (some h, p.2.map CallTag.primary)
  | none =>
    let sn := simple_name restaurant_name
    if sn ≠ restaurant_name ∧ 3 < sn.toList.length then
      let s := runSimplified restaurant_name 0 (env.simplified.take 3)
      (s.1, p.2.map CallTag.primary ++ s.2.map CallTag.simplifiedCall)
    else (none, p.2.map CallTag.primary)

/-- The status/message/handle fields of the row built by
`_process_single_row` (the AI low-confidence message is modelled without
the two-decimal float formatting of the f-string). -/
structure RowResult where
  status : String
  message : String
  instagram_handle : String
deriving DecidableEq, Repr

/-- The discovery and status part of `_process_single_row`: run
`find_instagram_handle`, set status ok or not_found, then demote to
probable when AI verification is on and reports low confidence. -/
def process_row_status (use_ai : Bool) (min_confidence : ℚ)
    (restaurant_name : String) (env : OrchestraEnv) (rowAI : LLMOutcome) : RowResult :=
  match (find_instagram_handle use_ai min_confidence restaurant_name env).1 with
  | some h =>
    if use_ai then
      let v := ai_verify_handle min_confidence rowAI
      if v.1 = false ∧ v.2.1 < min_confidence then
        { status := "probable", message := "AI low confidence: " ++ v.2.2,
          instagram_handle := h }
      else { status := "ok", message := "", instagram_handle := h }
    else { status := "ok", message := "", instagram_handle := h }
  | none => { status := "not_found", message := "No handle found", instagram_handle := "" }

/-! ## The review-flag pass (`add_review_flags`, identical in
`run_full_system_extract.py` and `run_full_system_golden.py`) -/

/-- The fields of a discovery-result dict that `add_review_flags` reads and
writes. -/
structure Row where
  business_id : String
  instagram_handle : String
  review : String
deriving DecidableEq, Repr

instance : Inhabited Row := ⟨{ business_id := "", instagram_handle := "", review := "" }⟩

/-- Python strip of a modelled string field read with a default. -/
def normField (s : String) : String := String.mk (pyStrip s.toList)

/-- Python strip and lower of the modelled instagram_handle field. -/
def normHandle (s : String) : String := String.mk (pyLower (pyStrip s.toList))

/-- Python `set.add`: append an element to a modelled set unless already present. -/
def setInsert (s : List String) (h : String) : List String :=
  if h ∈ s then s else s ++ [h]

/-- One dict update of the `by_biz` loop body, for a non-empty `bid`:
create the key if absent, and add the handle to its set when non-empty. -/
def dictStep (acc : List (String × List String)) (bid h : String) :
    List (String × List String) :=
  match acc with
  | [] => [(bid, if h = "" then [] else [h])]
  | (k, s) :: rest =>
    if k = bid then (k, if h = "" then s else setInsert s h) :: rest
    else (k, s) :: dictStep rest bid h

/-- The body of the first loop of `add_review_flags`: skip rows with an
empty (stripped) business id, otherwise update the dict. -/
def reviewStep (acc : List (String × List String)) (r : Row) :
    List (String × List String) :=
  let bid := normField r.business_id
  let h := normHandle r.instagram_handle
  if bid = "" then acc else dictStep acc bid h

/-- The first loop of `add_review_flags`: build `by_biz`, the dict from
(stripped, non-empty) business id to the set of distinct non-empty
normalized handles seen for it. -/
def buildByBiz (results : List Row) : List (String × List String) :=
  results.foldl reviewStep []

/-- Assoc-list lookup on the modelled dict. -/
def assocFind (bid : String) : List (String × List String) → Option (List String)
  | [] => none
  | (k, s) :: rest => if k = bid then some s else assocFind bid rest

/-- The handle set stored for a business id (empty when absent). -/
def lookupSet (d : List (String × List String)) (bid : String) : List String :=
  (assocFind bid d).getD []

/-- Fold a list of handles into a modelled set. -/
def insAll (s : List String) (l : List String) : List String := l.foldl setInsert s

/-- The `flagged` set comprehension: business ids whose handle set has more
than one element. -/
def flaggedBids (results : List Row) : List String :=
  ((buildByBiz results).filter (fun kv => 1 < kv.2.length)).map (fun kv => kv.1)

/-- Embeds `add_review_flags`: annotate every row with review FLAG when its
stripped business id is in the flagged set, else the empty string. -/
def add_review_flags (results : List Row) : List Row :=
  results.map (fun r =>
    { r with review := if normField r.business_id ∈ flaggedBids results then "FLAG" else "" })

/-- Modelled from the spec: the batch-level list of non-empty normalized
handles appearing for a given business id (claim side of C2, used to state
the characterization theorem). -/
def batchHandles (results : List Row) (bid : String) : List String :=
  ((results.filter (fun r => normField r.business_id = bid)).map
    (fun r => normHandle r.instagram_handle)).filter (fun h => h ≠ "")

/-- Modelled from the spec: the review value C2 asserts for one row of a
batch — `FLAG` exactly when the non-empty business id of the row has more than
one distinct non-empty handle across the whole batch. -/
def review_flag_spec (results : List Row) (r : Row) : String :=
  if normField r.business_id ≠ "" ∧ 1 < (batchHandles results (normField r.business_id)).dedup.length
  then "FLAG" else ""

/-- Modelled from the spec: the lightweight existence/keyword check that
claim C4 describes for `_verify_instagram_handle` — `some true` when the
profile page answers HTTP 200 and at least half of the restaurant-name
words longer than two characters appear in the page text, `some false` on a
reachable page failing that test, `none` (inconclusive) on a network
error.  The source function no longer performs any of this (see
`verify_instagram_handle`). -/
def spec_keyword_check (fetch : FetchOutcome) (restaurant_name : String) : Option Bool :=
  match fetch with
  | .netError _ => none
  | .success code text =>
    if code = 200 then
      let words := (pySplit (pyLower restaurant_name.toList)).filter (fun w => 2 < w.length)
      let found := (words.filter (fun w => pyIn w (pyLower text.toList))).length
      some (decide (words.length ≤ 2 * found))
    else some false

/-! ## Concrete fixtures used by counterexamples and witnesses -/

/-- An environment in which every primary strategy and every
simplified-name strategy returns no result. -/
def allFailEnv : OrchestraEnv :=
  { primary := [.nothing, .nothing, .nothing, .nothing, .nothing],
    simplified := [.nothing, .nothing, .nothing] }

/-- An environment in which the primary strategies all fail and the first
simplified-name strategy finds a handle. -/
def fallbackEnv : OrchestraEnv :=
  { primary := [.nothing, .nothing, .nothing, .nothing, .nothing],
    simplified := [.found "annastaqueria" (.failure ""), .nothing, .nothing] }

/-- An environment in which the first primary strategy finds a handle. -/
def primaryEnv : OrchestraEnv :=
  { primary := [.found "primaryhandle" (.failure "")], simplified := [] }

/-- A scoring environment realizing a pre-rounding percentage of 2648/53 =
49.9622...: `44/53` is `difflib.SequenceMatcher(None,
"xxxabcdefghijklmnopqrstuvw", "abcdefghijklmnopqrstuvyzyzy").ratio()` (one
common block of 22 characters out of 26 + 27), which is exactly the
handle/name cleanup of handle `"xxxabcdefghijklmnopqrstuvw....."` against
restaurant name `"abcdefghijklmnopqrstuvyzyzy"`; the profile fetch answers
404 and no Firecrawl validation data was stored. -/
def lowGradeEnv : ScoringEnv :=
  { similarity := 44/53, profileFetch := .success 404 "",
    validationData := none, geoRedFlags := 0, bioRedFlags := 0 }

/-- A generic scoring environment for witnesses. -/
def plainEnv : ScoringEnv :=
  { similarity := 1/2, profileFetch := .netError "timeout",
    validationData := none, geoRedFlags := 0, bioRedFlags := 0 }

/-- A review-flag batch: two rows share business id B1 with two distinct
handles (case/whitespace variants), one row has a different id, one row has
an empty id. -/
def reviewBatch : List Row :=
  [{ business_id := " B1 ", instagram_handle := "Handle1", review := "x" },
   { business_id := "B1", instagram_handle := "handle2 ", review := "" },
   { business_id := "B2", instagram_handle := "h3", review := "" },
   { business_id := "", instagram_handle := "h4", review := "" }]

/-! ## Theorems -/

/-- C1: the enhanced verification pass rejects a candidate with base
confidence `b`, geographic red-flag count `g`, bio red-flag count `o` and
accumulated adjustment `a` if and only if `g + o ≥ 3`, or `g ≥ 2`, or
`b + a < 40`, or (`b < 65` and `g + o ≥ 2`); in particular `g ≥ 2` forces
rejection regardless of how high `b` is. -/
theorem enhanced_verification_rejects_iff (b : ℚ) (loc g o : ℕ) (p : ℚ) :
    ((enhanced_verification b loc g o p).verified = false ↔
      3 ≤ g + o ∨ 2 ≤ g ∨
        b + (enhanced_verification b loc g o p).confidence_adjustment < 40 ∨
        (b < 65 ∧ 2 ≤ g + o)) ∧
    (2 ≤ g → (enhanced_verification b loc g o p).verified = false) := by
  have key : (enhanced_verification b loc g o p).verified = false ↔
      3 ≤ g + o ∨ 2 ≤ g ∨
        b + (enhanced_verification b loc g o p).confidence_adjustment < 40 ∨
        (b < 65 ∧ 2 ≤ g + o) := by
    unfold enhanced_verification
    dsimp only
    split_ifs with h1 h2 h3 h4 <;> simp_all
  exact ⟨key, fun hg => key.mpr (Or.inr (Or.inl hg))⟩

/-- Witness for C1: a candidate with base confidence 95 and two geographic
red flags is rejected. -/
theorem enhanced_verification_rejects_iff_witness :
    2 ≤ 2 ∧ (enhanced_verification 95 5 2 0 1).verified = false :=
  ⟨by norm_num, (enhanced_verification_rejects_iff 95 5 2 0 1).2 (by norm_num)⟩

/-- Clamping from below by 0 and above by 100 commutes. -/
theorem clamp_comm (x : ℚ) : max 0 (min 100 x) = min 100 (max 0 x) := by
  simp only [min_def, max_def]
  split_ifs <;> first | rfl | linarith

/-- C6: for base score `b ∈ [0, 100]` and AI confidence `0 < c ≤ 1`, the AI
incorporation yields `min(100, max(0, b + 0.3 * 100 * c))` when the AI
verified the handle and `min(100, max(0, b - 0.3 * 100 * (1 - c)))` when it
did not. -/
theorem incorporate_ai_confidence_formula (b c : ℚ)
    (hb0 : 0 ≤ b) (hb1 : b ≤ 100) (hc0 : 0 < c) (hc1 : c ≤ 1) :
    incorporate_ai_confidence b c true = min 100 (max 0 (b + 3/10 * 100 * c)) ∧
    incorporate_ai_confidence b c false = min 100 (max 0 (b - 3/10 * 100 * (1 - c))) := by
  have hne : c ≠ 0 := ne_of_gt hc0
  constructor
  · simp only [incorporate_ai_confidence, if_neg hne, if_pos]
    rw [show b + c * 100 * (3/10) = b + 3/10 * 100 * c by ring, clamp_comm]
  · simp only [incorporate_ai_confidence, if_neg hne, Bool.false_eq_true, if_false]
    rw [show b + -((1 - c) * 100 * (3/10)) = b - 3/10 * 100 * (1 - c) by ring, clamp_comm]

/-- Witness for C6 at `b = 50`, `c = 1/2`: a verified judgment boosts to 65
and an unverified one drops to 35. -/
theorem incorporate_ai_confidence_formula_witness :
    (0 : ℚ) ≤ 50 ∧ (50 : ℚ) ≤ 100 ∧ (0 : ℚ) < 1/2 ∧ (1/2 : ℚ) ≤ 1 ∧
    incorporate_ai_confidence 50 (1/2) true = min 100 (max 0 (50 + 3/10 * 100 * (1/2))) ∧
    incorporate_ai_confidence 50 (1/2) false = min 100 (max 0 (50 - 3/10 * 100 * (1 - 1/2))) :=
  ⟨by norm_num, by norm_num, by norm_num, by norm_num,
    (incorporate_ai_confidence_formula 50 (1/2) (by norm_num) (by norm_num)
      (by norm_num) (by norm_num)).1,
    (incorporate_ai_confidence_formula 50 (1/2) (by norm_num) (by norm_num)
      (by norm_num) (by norm_num)).2⟩

/-- C10: with AI confidence exactly 0 the score is returned unchanged even
when the AI did not verify the handle, while an unverified judgment with
confidence 1/100 reduces any score in [30, 100] by 29.7 points. -/
theorem incorporate_ai_confidence_zero_no_penalty (b : ℚ) :
    incorporate_ai_confidence b 0 false = b ∧
    (30 ≤ b → b ≤ 100 → incorporate_ai_confidence b (1/100) false = b - 297/10) := by
  constructor
  · simp [incorporate_ai_confidence]
  · intro h30 h100
    have hne : (1/100 : ℚ) ≠ 0 := by norm_num
    simp only [incorporate_ai_confidence, if_neg hne, Bool.false_eq_true, if_false]
    rw [show b + -((1 - 1/100) * 100 * (3/10)) = b - 297/10 by ring,
      min_eq_right (by linarith), max_eq_right (by linarith)]

/-- Witness for C10 at `b = 50`: zero confidence leaves 50 unchanged and
confidence 1/100 drops it to 20.3. -/
theorem incorporate_ai_confidence_zero_no_penalty_witness :
    incorporate_ai_confidence 50 0 false = 50 ∧
    incorporate_ai_confidence 50 (1/100) false = 50 - 297/10 :=
  ⟨(incorporate_ai_confidence_zero_no_penalty 50).1,
    (incorporate_ai_confidence_zero_no_penalty 50).2 (by norm_num) (by norm_num)⟩

/-- C9: when the LLM call raises any exception, the AI verification returns
the soft pass `verified = True` with confidence 1.0, and the reason string
records the failure message. -/
theorem ai_verify_handle_soft_pass (min_confidence : ℚ) (err : String) :
    ai_verify_handle min_confidence (.failure err) =
      (true, 1, "AI verify skipped: " ++ err) := rfl

/-- C4 counterexample: the claim says `html_ok` passes exactly when the
profile page answers HTTP 200 and at least half of the long restaurant-name
words appear in it, but `_verify_instagram_handle` is a bypass that returns
`True` unconditionally — for a page answering 404 the spec-side check says
`false` while the source still passes the handle. -/
theorem verify_keyword_check_counterexample :
    ¬ (∀ (handle restaurant_name : String) (fetch : FetchOutcome),
        verify_instagram_handle handle restaurant_name = true ↔
          spec_keyword_check fetch restaurant_name = some true) := by
  intro hclaim
  have h := (hclaim "joespizza" "Joes Pizza House" (.success 404 "")).mp rfl
  exact absurd h (by decide)

/-- C4 amended: `_verify_instagram_handle` unconditionally returns `True`
(the keyword verification is bypassed as a deliberate experiment), for every
handle and restaurant name. -/
theorem verify_instagram_handle_always_true (handle restaurant_name : String) :
    verify_instagram_handle handle restaurant_name = true := rfl

/-- C5 counterexample: the claim says that when every primary strategy and
the simplified-name fallback fail, the orchestrator searches for a
corporate/brand-wide handle; in the source that fallback was removed — on
an environment where everything fails the corporate path is never invoked
(and no handle is returned). -/
theorem corporate_fallback_counterexample :
    ¬ (∀ env : OrchestraEnv,
        (find_instagram_handle false (7/10) "Shake Shack (Back Bay)" env).1 = none →
          CallTag.corporate ∈ (find_instagram_handle false (7/10) "Shake Shack (Back Bay)" env).2) := by
  intro hclaim
  exact absurd (hclaim allFailEnv (by decide)) (by decide)

/-- C5 amended: the corporate/global fallback has been removed — on every
input the orchestrator never invokes the corporate path. -/
theorem find_instagram_handle_never_corporate (use_ai : Bool) (min_confidence : ℚ)
    (restaurant_name : String) (env : OrchestraEnv) :
    CallTag.corporate ∉ (find_instagram_handle use_ai min_confidence restaurant_name env).2 := by
  have h1 : ∀ l : List ℕ, CallTag.corporate ∉ l.map CallTag.primary := by
    intro l hm
    rcases List.mem_map.mp hm with ⟨i, _, hi⟩
    cases hi
  have h2 : ∀ l : List ℕ, CallTag.corporate ∉ l.map CallTag.simplifiedCall := by
    intro l hm
    rcases List.mem_map.mp hm with ⟨i, _, hi⟩
    cases hi
  intro hmem
  unfold find_instagram_handle at hmem
  dsimp only at hmem
  split at hmem
  · exact h1 _ hmem
  · split at hmem
    · rcases List.mem_append.mp hmem with h | h
      · exact h1 _ h
      · exact h2 _ h
    · exact h1 _ hmem

/-- The primary strategy loop stops at the first outcome contributing a
passing candidate: earlier non-passing strategies are stepped over and no
strategy after the winner is invoked (every invoked index stays at or below
the position of the winner). -/
theorem runPrimary_first_pass (use_ai : Bool) (m : ℚ) (name : String)
    (r : AdapterResult) (post : List AdapterResult) (h : String) :
    ∀ pre : List AdapterResult,
      (∀ x ∈ pre, passing_candidate use_ai m name x = none) →
      passing_candidate use_ai m name r = some h →
      ∀ i, (runPrimary use_ai m name i (pre ++ r :: post)).1 = some h ∧
        ∀ j ∈ (runPrimary use_ai m name i (pre ++ r :: post)).2, j ≤ i + pre.length := by
  intro pre
  induction pre with
  | nil =>
    intro _ hr i
    cases r with
    | found h' ai =>
      simp only [passing_candidate, verify_instagram_handle, Bool.true_or, if_true,
        Option.some.injEq] at hr
      subst hr
      constructor
      · simp [runPrimary, verify_instagram_handle]
      · intro j hj
        simp only [List.nil_append, runPrimary, verify_instagram_handle, Bool.true_or,
          if_true, List.mem_singleton] at hj
        omega
    | nothing => simp [passing_candidate] at hr
    | raises msg => simp [passing_candidate] at hr
  | cons x pre' ih =>
    intro hpre hr i
    have hx := hpre x (List.mem_cons_self x pre')
    have hpre' : ∀ y ∈ pre', passing_candidate use_ai m name y = none :=
      fun y hy => hpre y (List.mem_cons_of_mem x hy)
    have hrec := ih hpre' hr (i + 1)
    cases x with
    | found h' ai =>
      exfalso
      simp [passing_candidate, verify_instagram_handle] at hx
    | nothing =>
      constructor
      · simpa only [List.cons_append, runPrimary] using hrec.1
      · intro j hj
        simp only [List.cons_append, runPrimary, List.mem_cons] at hj
        rcases hj with rfl | hj'
        · simp
        · have := hrec.2 j hj'
          simp only [List.length_cons]
          omega
    | raises msg =>
      constructor
      · simpa only [List.cons_append, runPrimary] using hrec.1
      · intro j hj
        simp only [List.cons_append, runPrimary, List.mem_cons] at hj
        rcases hj with rfl | hj'
        · simp
        · have := hrec.2 j hj'
          simp only [List.length_cons]
          omega

/-- C8: as soon as some adapter returns a candidate that passes
verification (`html_ok or ai_ok`), `find_instagram_handle` returns that
candidate, and every invoked call is a primary strategy at or before the
position of the winner — no later adapter is ever invoked. -/
theorem first_verified_candidate_wins (use_ai : Bool) (m : ℚ) (name : String)
    (pre : List AdapterResult) (r : AdapterResult)
    (post simplifiedList : List AdapterResult) (h : String)
    (hpre : ∀ x ∈ pre, passing_candidate use_ai m name x = none)
    (hr : passing_candidate use_ai m name r = some h) :
    (find_instagram_handle use_ai m name ⟨pre ++ r :: post, simplifiedList⟩).1 = some h ∧
    ∀ t ∈ (find_instagram_handle use_ai m name ⟨pre ++ r :: post, simplifiedList⟩).2,
      ∃ j, j ≤ pre.length ∧ t = CallTag.primary j := by
  have haux := runPrimary_first_pass use_ai m name r post h pre hpre hr 0
  constructor
  · unfold find_instagram_handle
    dsimp only
    rw [haux.1]
  · intro t ht
    unfold find_instagram_handle at ht
    dsimp only at ht
    rw [haux.1] at ht
    dsimp only at ht
    rcases List.mem_map.mp ht with ⟨j, hj, rfl⟩
    exact ⟨j, by simpa using haux.2 j hj, rfl⟩

/-- Witness for C8: with one failing adapter before the winner and one
adapter after it, the handle of the winner is returned. -/
theorem first_verified_candidate_wins_witness :
    (∀ x ∈ [AdapterResult.nothing], passing_candidate false (7/10) "Joes Pizza" x = none) ∧
    passing_candidate false (7/10) "Joes Pizza"
      (.found "joespizza" (.failure "")) = some "joespizza" ∧
    (find_instagram_handle false (7/10) "Joes Pizza"
      ⟨[AdapterResult.nothing] ++
        AdapterResult.found "joespizza" (.failure "") ::
          [AdapterResult.found "otherhandle" (.failure "")], []⟩).1 = some "joespizza" :=
  ⟨by decide, by decide,
    (first_verified_candidate_wins false (7/10) "Joes Pizza" [.nothing]
      (.found "joespizza" (.failure "")) [.found "otherhandle" (.failure "")] []
      "joespizza" (by decide) (by decide)).1⟩

/-- C7 counterexample: on `"Annas Taqueria (MGH)"` with all primary
strategies failing and the simplified-name fallback finding
`annastaqueria`, the produced row has exactly the same status (`ok`) and
message (empty) as a primary-path success — the degraded fallback path is
NOT distinguished, contrary to the claim. -/
theorem simplified_fallback_counterexample :
    (find_instagram_handle false (7/10) "Annas Taqueria (MGH)" fallbackEnv).1 =
      some "annastaqueria" ∧
    CallTag.simplifiedCall 0 ∈
      (find_instagram_handle false (7/10) "Annas Taqueria (MGH)" fallbackEnv).2 ∧
    (find_instagram_handle false (7/10) "Annas Taqueria (MGH)" primaryEnv).1 =
      some "primaryhandle" ∧
    (process_row_status false (7/10) "Annas Taqueria (MGH)" fallbackEnv (.failure "")).status =
      (process_row_status false (7/10) "Annas Taqueria (MGH)" primaryEnv (.failure "")).status ∧
    (process_row_status false (7/10) "Annas Taqueria (MGH)" fallbackEnv (.failure "")).message =
      (process_row_status false (7/10) "Annas Taqueria (MGH)" primaryEnv (.failure "")).message ∧
    (process_row_status false (7/10) "Annas Taqueria (MGH)" fallbackEnv (.failure "")).status = "ok" ∧
    (process_row_status false (7/10) "Annas Taqueria (MGH)" fallbackEnv (.failure "")).message = "" :=
  ⟨by decide, by decide, by decide, by decide, by decide, by decide, by decide⟩

/-- C7 amended: any discovered handle — whether found by a primary strategy
or by the simplified-name fallback — yields status `ok` and an empty
message (absent AI demotion), so the fallback path is indistinguishable
from a primary-path success in the result row. -/
theorem simplified_fallback_not_distinguished (use_ai : Bool) (m : ℚ)
    (name : String) (env : OrchestraEnv) (rowAI : LLMOutcome) (h : String)
    (hai : use_ai = false)
    (hfound : (find_instagram_handle use_ai m name env).1 = some h) :
    process_row_status use_ai m name env rowAI =
      { status := "ok", message := "", instagram_handle := h } := by
  subst hai
  simp [process_row_status, hfound]

/-- Witness for the amended theorem of C7 at the concrete fallback environment. -/
theorem simplified_fallback_not_distinguished_witness :
    (false = false) ∧
    (find_instagram_handle false (7/10) "Annas Taqueria (MGH)" fallbackEnv).1 =
      some "annastaqueria" ∧
    process_row_status false (7/10) "Annas Taqueria (MGH)" fallbackEnv (.failure "") =
      { status := "ok", message := "", instagram_handle := "annastaqueria" } :=
  ⟨rfl, by decide,
    simplified_fallback_not_distinguished false (7/10) "Annas Taqueria (MGH)"
      fallbackEnv (.failure "") "annastaqueria" rfl (by decide)⟩

/-- Half-to-even rounding of a nonnegative rational is nonnegative. -/
theorem roundHalfEven_nonneg {x : ℚ} (hx : 0 ≤ x) : 0 ≤ roundHalfEven x := by
  unfold roundHalfEven
  dsimp only
  have hf : (0 : ℤ) ≤ ⌊x⌋ := Int.floor_nonneg.mpr hx
  split_ifs <;> omega

/-- Half-to-even rounding never exceeds an integer bound of its argument. -/
theorem roundHalfEven_le {x : ℚ} {B : ℤ} (hx : x ≤ B) : roundHalfEven x ≤ B := by
  unfold roundHalfEven
  dsimp only
  have hf : ⌊x⌋ ≤ B := by
    have h := Int.floor_le_floor hx
    rwa [Int.floor_intCast] at h
  have hstep : ¬ ⌊x⌋ + 1 ≤ B → 1/2 < x - (⌊x⌋ : ℚ) → False := by
    intro hno hr
    have hB : ⌊x⌋ = B := by omega
    have : x - (⌊x⌋ : ℚ) ≤ 0 := by
      rw [hB]
      have : ((B : ℤ) : ℚ) = (B : ℚ) := by norm_cast
      linarith
    linarith
  split_ifs with h1 h2 h3
  · exact hf
  · by_contra hno
    exact hstep (by omega) h2
  · exact hf
  · by_contra hno
    have hr : x - (⌊x⌋ : ℚ) = 1/2 := le_antisymm (le_of_not_lt h2) (le_of_not_lt h1)
    have hB : ⌊x⌋ = B := by omega
    have hle : x ≤ (⌊x⌋ : ℚ) := by
      rw [hB]
      exact_mod_cast hx
    linarith

/-- Rounding to one decimal stays within the clamp bounds. -/
theorem pythonRound1_bounds {x : ℚ} (h0 : 0 ≤ x) (h1 : x ≤ 100) :
    0 ≤ pythonRound1 x ∧ pythonRound1 x ≤ 100 := by
  unfold pythonRound1
  have ha := roundHalfEven_nonneg (x := 10 * x) (by linarith)
  have hb := roundHalfEven_le (x := 10 * x) (B := 1000) (by push_cast; linarith)
  have ha' : (0 : ℚ) ≤ (roundHalfEven (10 * x) : ℚ) := by exact_mod_cast ha
  have hb' : ((roundHalfEven (10 * x) : ℤ) : ℚ) ≤ 1000 := by exact_mod_cast hb
  constructor <;> [linarith; linarith]

/-- The handle-quality factor is nonnegative. -/
theorem evaluate_handle_quality_nonneg (handle restaurant_name : String) :
    0 ≤ evaluate_handle_quality handle restaurant_name := by
  unfold evaluate_handle_quality
  dsimp only
  split_ifs <;> positivity

/-- The name-similarity factor is nonnegative when the similarity ratio
is. -/
theorem calculate_name_similarity_nonneg (s : ℚ) (hs : 0 ≤ s)
    (handle restaurant_name : String) :
    0 ≤ calculate_name_similarity s handle restaurant_name := by
  unfold calculate_name_similarity
  dsimp only
  split_ifs with h
  · positivity
  · have hcov : (0 : ℚ) ≤
        (((pySplit (pyLower restaurant_name.toList)).filter
          (fun w => 2 < w.length)).filter
            (fun w => pyIn w (pyLower handle.toList))).length /
          (((pySplit (pyLower restaurant_name.toList)).filter
            (fun w => 2 < w.length)).length : ℚ) :=
      div_nonneg (Nat.cast_nonneg _) (Nat.cast_nonneg _)
    nlinarith

/-- The basic-validation factor is nonnegative. -/
theorem perform_basic_validation_nonneg (f : FetchOutcome)
    (handle restaurant_name : String) :
    0 ≤ perform_basic_validation f handle restaurant_name := by
  unfold perform_basic_validation
  cases f with
  | netError m => norm_num
  | success code text =>
    dsimp only
    split_ifs <;> norm_num

/-- The additive base score of `_calculate_confidence_score` is
nonnegative when the similarity ratio is. -/
theorem base_points_nonneg (env : ScoringEnv)
    (restaurant_name handle corp_handle status : String)
    (hs : 0 ≤ env.similarity) :
    0 ≤ base_points env restaurant_name handle corp_handle status := by
  unfold base_points
  have h1 := evaluate_handle_quality_nonneg handle restaurant_name
  have h2 := calculate_name_similarity_nonneg env.similarity hs handle restaurant_name
  have h3 := perform_basic_validation_nonneg env.profileFetch handle restaurant_name
  split_ifs <;> linarith

/-- The pre-rounding confidence percentage is clamped to `[0, 100]`. -/
theorem confidence_pre_round_bounds (env : ScoringEnv)
    (restaurant_name handle corp_handle status : String)
    (hs : 0 ≤ env.similarity) :
    0 ≤ confidence_pre_round env restaurant_name handle corp_handle status ∧
    confidence_pre_round env restaurant_name handle corp_handle status ≤ 100 := by
  have hbase := base_points_nonneg env restaurant_name handle corp_handle status hs
  obtain ⟨sim, pf, vd, gf, bf⟩ := env
  unfold confidence_pre_round
  dsimp only at hbase ⊢
  split_ifs with hh
  · norm_num
  · cases vd with
    | none =>
      dsimp only
      constructor
      · exact le_min (by linarith) (by norm_num)
      · exact min_le_right _ _
    | some v =>
      dsimp only
      split_ifs with hv
      · constructor
        · exact le_max_left _ _
        · exact max_le (by norm_num) (min_le_left _ _)
      · norm_num

/-- Rounding zero yields zero. -/
theorem pythonRound1_zero : pythonRound1 0 = 0 := by
  unfold pythonRound1 roundHalfEven
  dsimp only
  have h0 : ⌊(10 : ℚ) * 0⌋ = 0 := by norm_num
  rw [h0]
  rw [if_pos (by norm_num)]
  norm_num

/-- Grading zero yields `Low`. -/
theorem get_confidence_grade_zero : get_confidence_grade 0 = "Low" := by
  unfold get_confidence_grade
  rw [if_neg (by norm_num), if_neg (by norm_num)]

/-- Embeds a key fact: `_calculate_confidence_score` returns the rounded percentage together
with the grade of the UN-rounded percentage. -/
theorem calculate_confidence_score_eq (env : ScoringEnv)
    (restaurant_name handle corp_handle status : String) :
    calculate_confidence_score env restaurant_name handle corp_handle status =
      (pythonRound1 (confidence_pre_round env restaurant_name handle corp_handle status),
        get_confidence_grade
          (confidence_pre_round env restaurant_name handle corp_handle status)) := by
  obtain ⟨sim, pf, vd, gf, bf⟩ := env
  unfold calculate_confidence_score confidence_pre_round
  dsimp only
  split_ifs with hh
  · rw [pythonRound1_zero, get_confidence_grade_zero]
  · cases vd with
    | none => rfl
    | some v =>
      dsimp only
      split_ifs with hv
      · rfl
      · rw [pythonRound1_zero, get_confidence_grade_zero]

/-- The AI incorporation keeps a `[0, 100]` score in `[0, 100]`. -/
theorem incorporate_ai_confidence_bounds (b c : ℚ) (v : Bool)
    (hb0 : 0 ≤ b) (hb1 : b ≤ 100) :
    0 ≤ incorporate_ai_confidence b c v ∧ incorporate_ai_confidence b c v ≤ 100 := by
  unfold incorporate_ai_confidence
  dsimp only
  split_ifs <;>
    first
      | exact ⟨hb0, hb1⟩
      | exact ⟨le_max_left _ _, max_le (by norm_num) (min_le_left _ _)⟩

/-- C3 amended: the final confidence score always lies in `[0, 100]`, and
the grade is the pure grade function applied to the final blended score in
the AI path, but to the PRE-ROUNDING percentage in the non-AI path (which
the counterexample shows can disagree with the grade of the returned
rounded score). -/
theorem confidence_score_range_and_grade (m : ℚ) (env : ScoringEnv)
    (restaurant_name handle corp status : String) (use_ai : Bool) (aiOut : LLMOutcome)
    (hs : 0 ≤ env.similarity) :
    0 ≤ (final_confidence m env restaurant_name handle corp status use_ai aiOut).1 ∧
    (final_confidence m env restaurant_name handle corp status use_ai aiOut).1 ≤ 100 ∧
    (final_confidence m env restaurant_name handle corp status use_ai aiOut).2 =
      get_confidence_grade
        (if use_ai ∧ handle ≠ "" then
          (final_confidence m env restaurant_name handle corp status use_ai aiOut).1
        else confidence_pre_round env restaurant_name handle corp status) := by
  have hpre := confidence_pre_round_bounds env restaurant_name handle corp status hs
  have hcalc := calculate_confidence_score_eq env restaurant_name handle corp status
  have hround := pythonRound1_bounds hpre.1 hpre.2
  by_cases hAI : use_ai ∧ handle ≠ ""
  · have hib := incorporate_ai_confidence_bounds
      (calculate_confidence_score env restaurant_name handle corp status).1
      (ai_verify_handle m aiOut).2.1 (ai_verify_handle m aiOut).1
      (by rw [hcalc]; exact hround.1) (by rw [hcalc]; exact hround.2)
    unfold final_confidence
    rw [if_pos hAI]
    exact ⟨hib.1, hib.2, by rw [if_pos hAI]⟩
  · unfold final_confidence
    rw [if_neg hAI]
    rw [hcalc]
    exact ⟨hround.1, hround.2, by rw [if_neg hAI]⟩

/-- Witness for the amended theorem of C3 at a concrete environment. -/
theorem confidence_score_range_and_grade_witness :
    (0 : ℚ) ≤ plainEnv.similarity ∧
    (0 ≤ (final_confidence (7/10) plainEnv "Test Grill" "testgrill" "" "ok" false (.failure "")).1 ∧
      (final_confidence (7/10) plainEnv "Test Grill" "testgrill" "" "ok" false (.failure "")).1 ≤ 100 ∧
      (final_confidence (7/10) plainEnv "Test Grill" "testgrill" "" "ok" false (.failure "")).2 =
        get_confidence_grade
          (if false ∧ "testgrill" ≠ "" then
            (final_confidence (7/10) plainEnv "Test Grill" "testgrill" "" "ok" false (.failure "")).1
          else confidence_pre_round plainEnv "Test Grill" "testgrill" "" "ok")) :=
  ⟨by norm_num [plainEnv],
    confidence_score_range_and_grade (7/10) plainEnv "Test Grill" "testgrill" "" "ok"
      false (.failure "") (by norm_num [plainEnv])⟩

/-- C3 counterexample: the claim that the grade is a pure function of the
RETURNED score (High iff ≥ 80, Medium iff 50 ≤ score < 80) is false: for
restaurant name `"abcdefghijklmnopqrstuvyzyzy"`, handle
`"xxxabcdefghijklmnopqrstuvw....."` and the environment `lowGradeEnv`
(difflib ratio 44/53, profile fetch 404, no validation data), the
pre-rounding percentage is 2648/53 = 49.9622..., which is graded `Low` but
returned rounded to exactly 50 — a score of 50 carrying grade `Low`. -/
theorem score_grade_purity_counterexample :
    ¬ (∀ (m : ℚ) (env : ScoringEnv) (restaurant_name handle corp status : String)
        (use_ai : Bool) (aiOut : LLMOutcome),
        0 ≤ env.similarity → env.similarity ≤ 1 →
        (0 ≤ (final_confidence m env restaurant_name handle corp status use_ai aiOut).1 ∧
          (final_confidence m env restaurant_name handle corp status use_ai aiOut).1 ≤ 100 ∧
          (final_confidence m env restaurant_name handle corp status use_ai aiOut).2 =
            get_confidence_grade
              (final_confidence m env restaurant_name handle corp status use_ai aiOut).1)) := by
  intro hclaim
  have h := hclaim (7/10) lowGradeEnv "abcdefghijklmnopqrstuvyzyzy"
    "xxxabcdefghijklmnopqrstuvw....." "" "ok" false (.failure "")
    (by norm_num [lowGradeEnv]) (by norm_num [lowGradeEnv])
  -- evaluate the four additive factors on the concrete strings
  have hq : evaluate_handle_quality "xxxabcdefghijklmnopqrstuvw....."
      "abcdefghijklmnopqrstuvyzyzy" = (0 : ℚ) + 0 + 0 + 0 := rfl
  have hq' : evaluate_handle_quality "xxxabcdefghijklmnopqrstuvw....."
      "abcdefghijklmnopqrstuvyzyzy" = 0 := by rw [hq]; norm_num
  have hsim : calculate_name_similarity lowGradeEnv.similarity
      "xxxabcdefghijklmnopqrstuvw....." "abcdefghijklmnopqrstuvyzyzy" =
      (lowGradeEnv.similarity * (6/10) + (((0 : ℕ) : ℚ) / ((1 : ℕ) : ℚ)) * (4/10)) * 20 := rfl
  have hsimfield : lowGradeEnv.similarity = 44/53 := rfl
  have hsim' : calculate_name_similarity lowGradeEnv.similarity
      "xxxabcdefghijklmnopqrstuvw....." "abcdefghijklmnopqrstuvyzyzy" = 528/53 := by
    rw [hsim, hsimfield]; norm_num
  have hval : perform_basic_validation lowGradeEnv.profileFetch
      "xxxabcdefghijklmnopqrstuvw....." "abcdefghijklmnopqrstuvyzyzy" = 0 := rfl
  have hbase0 : base_points lowGradeEnv "abcdefghijklmnopqrstuvyzyzy"
      "xxxabcdefghijklmnopqrstuvw....." "" "ok" =
      30 + evaluate_handle_quality "xxxabcdefghijklmnopqrstuvw....."
          "abcdefghijklmnopqrstuvyzyzy"
        + calculate_name_similarity lowGradeEnv.similarity
            "xxxabcdefghijklmnopqrstuvw....." "abcdefghijklmnopqrstuvyzyzy"
        + perform_basic_validation lowGradeEnv.profileFetch
            "xxxabcdefghijklmnopqrstuvw....." "abcdefghijklmnopqrstuvyzyzy"
        + 10 := rfl
  have hbase : base_points lowGradeEnv "abcdefghijklmnopqrstuvyzyzy"
      "xxxabcdefghijklmnopqrstuvw....." "" "ok" = 2648/53 := by
    rw [hbase0, hq', hsim', hval]; norm_num
  have hpre0 : confidence_pre_round lowGradeEnv "abcdefghijklmnopqrstuvyzyzy"
      "xxxabcdefghijklmnopqrstuvw....." "" "ok" =
      min (base_points lowGradeEnv "abcdefghijklmnopqrstuvyzyzy"
        "xxxabcdefghijklmnopqrstuvw....." "" "ok" / 100 * 100) 100 := rfl
  have hpct : confidence_pre_round lowGradeEnv "abcdefghijklmnopqrstuvyzyzy"
      "xxxabcdefghijklmnopqrstuvw....." "" "ok" = 2648/53 := by
    rw [hpre0, hbase]
    rw [show (2648/53 : ℚ) / 100 * 100 = 2648/53 by norm_num]
    exact min_eq_left (by norm_num)
  -- the rounded score is exactly 50 while the pre-rounding grade is Low
  have hfl : ⌊(10 : ℚ) * (2648/53)⌋ = 499 := by
    rw [Int.floor_eq_iff] ; norm_num
  have hround : pythonRound1 (2648/53) = 50 := by
    unfold pythonRound1 roundHalfEven
    dsimp only
    rw [hfl, if_neg (by norm_num), if_pos (by norm_num)]
    norm_num
  have hgrLow : get_confidence_grade (2648/53) = "Low" := by
    unfold get_confidence_grade
    rw [if_neg (by norm_num), if_neg (by norm_num)]
  have hgrMed : get_confidence_grade 50 = "Medium" := by
    unfold get_confidence_grade
    rw [if_neg (by norm_num), if_pos (by norm_num)]
  have hfin : final_confidence (7/10) lowGradeEnv "abcdefghijklmnopqrstuvyzyzy"
      "xxxabcdefghijklmnopqrstuvw....." "" "ok" false (.failure "") = (50, "Low") := by
    unfold final_confidence
    rw [if_neg (by simp)]
    rw [calculate_confidence_score_eq, hpct, hround, hgrLow]
  rw [hfin] at h
  have hcontr := h.2.2
  dsimp only at hcontr
  rw [hgrMed] at hcontr
  exact absurd hcontr (by decide)

/-! ### The review-flag characterization (C2) -/

/-- Membership in a modelled set after one insertion. -/
theorem mem_setInsert (x h : String) (s : List String) :
    x ∈ setInsert s h ↔ x ∈ s ∨ x = h := by
  unfold setInsert
  split_ifs with hmem
  · constructor
    · exact Or.inl
    · rintro (hx | rfl)
      · exact hx
      · exact hmem
  · simp

/-- Inserting into a duplicate-free modelled set keeps it duplicate-free. -/
theorem setInsert_nodup {s : List String} (h : String) (hs : s.Nodup) :
    (setInsert s h).Nodup := by
  unfold setInsert
  split_ifs with hmem
  · exact hs
  · exact List.Nodup.append hs (by simp)
      (by intro x hx hx'; simp at hx'; subst hx'; exact hmem hx)

/-- Membership after folding a list of insertions. -/
theorem mem_insAll (x : String) (l : List String) :
    ∀ s, x ∈ insAll s l ↔ x ∈ s ∨ x ∈ l := by
  induction l with
  | nil => intro s; simp [insAll]
  | cons h t ih =>
    intro s
    rw [show insAll s (h :: t) = insAll (setInsert s h) t from rfl, ih, mem_setInsert]
    simp [or_assoc]

/-- Folding insertions preserves freedom from duplicates. -/
theorem insAll_nodup (l : List String) : ∀ s : List String, s.Nodup → (insAll s l).Nodup := by
  induction l with
  | nil => intro s hs; exact hs
  | cons h t ih => intro s hs; exact ih _ (setInsert_nodup h hs)

/-- Looking up the updated key after a dict update. -/
theorem assocFind_dictStep_self (acc : List (String × List String)) (bid h : String) :
    assocFind bid (dictStep acc bid h) =
      some (if h = "" then lookupSet acc bid else setInsert (lookupSet acc bid) h) := by
  induction acc with
  | nil =>
    by_cases hh : h = "" <;> simp [dictStep, assocFind, lookupSet, setInsert, hh]
  | cons kv rest ih =>
    obtain ⟨k, s⟩ := kv
    by_cases hk : k = bid
    · subst hk
      simp [dictStep, assocFind, lookupSet]
    · simp [dictStep, assocFind, lookupSet, hk, ih]

/-- Looking up a different key after a dict update. -/
theorem assocFind_dictStep_other (acc : List (String × List String)) (bid h bid' : String)
    (hne : bid' ≠ bid) :
    assocFind bid' (dictStep acc bid h) = assocFind bid' acc := by
  induction acc with
  | nil =>
    simp [dictStep, assocFind, (show bid ≠ bid' from fun hh => hne hh.symm)]
  | cons kv rest ih =>
    obtain ⟨k, s⟩ := kv
    by_cases hk : k = bid
    · rw [hk]
      simp only [dictStep, assocFind]
      rw [if_neg (fun hh => hne hh.symm), if_neg (fun hh => hne hh.symm)]
    · by_cases hk' : k = bid'
      · subst hk'
        simp [dictStep, assocFind, hk]
      · simp [dictStep, assocFind, hk, hk', ih]

/-- One row prepends at most one handle to the batch-level handle list. -/
theorem batchHandles_cons (r : Row) (rest : List Row) (bid : String) :
    batchHandles (r :: rest) bid =
      (if normField r.business_id = bid ∧ normHandle r.instagram_handle ≠ ""
        then [normHandle r.instagram_handle] else []) ++ batchHandles rest bid := by
  unfold batchHandles
  by_cases h1 : normField r.business_id = bid <;>
    by_cases h2 : normHandle r.instagram_handle = "" <;>
      simp [h1, h2, List.filter_cons]

/-- The dict built by the first loop stores, for every non-empty business
id, exactly the fold of the batch-level handles over the accumulator. -/
theorem buildFold_lookupSet (bid : String) (hbid : bid ≠ "") :
    ∀ (rs : List Row) (acc : List (String × List String)),
      lookupSet (rs.foldl reviewStep acc) bid =
        insAll (lookupSet acc bid) (batchHandles rs bid) := by
  intro rs
  induction rs with
  | nil => intro acc; simp [batchHandles, insAll]
  | cons r rest ih =>
    intro acc
    rw [List.foldl_cons, batchHandles_cons]
    by_cases hb0 : normField r.business_id = ""
    · have hcond : ¬(normField r.business_id = bid ∧ normHandle r.instagram_handle ≠ "") := by
        rintro ⟨h1, _⟩
        exact hbid (by rw [← h1, hb0])
      rw [if_neg hcond]
      simp only [List.nil_append]
      rw [show reviewStep acc r = acc by simp [reviewStep, hb0]]
      exact ih acc
    · by_cases hbb : normField r.business_id = bid
      · have hstep : reviewStep acc r = dictStep acc bid (normHandle r.instagram_handle) := by
          rw [show reviewStep acc r =
            dictStep acc (normField r.business_id) (normHandle r.instagram_handle) by
              simp [reviewStep, hb0], hbb]
        rw [hstep, ih]
        have hl : lookupSet (dictStep acc bid (normHandle r.instagram_handle)) bid =
            if normHandle r.instagram_handle = "" then lookupSet acc bid
            else setInsert (lookupSet acc bid) (normHandle r.instagram_handle) := by
          unfold lookupSet
          rw [assocFind_dictStep_self]
          rfl
        rw [hl]
        by_cases hh : normHandle r.instagram_handle = ""
        · rw [if_pos hh, if_neg (by rintro ⟨_, hne⟩; exact hne hh)]
          simp
        · rw [if_neg hh, if_pos ⟨hbb, hh⟩]
          rfl
      · have hstep : reviewStep acc r =
            dictStep acc (normField r.business_id) (normHandle r.instagram_handle) := by
          simp [reviewStep, hb0]
        rw [if_neg (by rintro ⟨h1, _⟩; exact hbb h1), hstep, ih]
        simp only [List.nil_append]
        have : lookupSet (dictStep acc (normField r.business_id)
            (normHandle r.instagram_handle)) bid = lookupSet acc bid := by
          unfold lookupSet
          rw [assocFind_dictStep_other _ _ _ _ (fun hh => hbb hh.symm)]
        rw [this]

/-- A dict update leaves the key list unchanged or appends the new key. -/
theorem dictStep_keys (acc : List (String × List String)) (bid h : String) :
    (dictStep acc bid h).map Prod.fst =
      if bid ∈ acc.map Prod.fst then acc.map Prod.fst
      else acc.map Prod.fst ++ [bid] := by
  induction acc with
  | nil => simp [dictStep]
  | cons kv rest ih =>
    obtain ⟨k, s⟩ := kv
    by_cases hk : k = bid
    · subst hk
      simp [dictStep]
    · simp only [dictStep, if_neg hk, List.map_cons]
      rw [ih]
      by_cases hmem : bid ∈ rest.map Prod.fst <;>
        simp [hmem, (show ¬(bid = k) from fun hh => hk hh.symm)]

/-- A dict update preserves freedom from duplicate keys. -/
theorem dictStep_keys_nodup (acc : List (String × List String)) (bid h : String)
    (hnd : (acc.map Prod.fst).Nodup) : ((dictStep acc bid h).map Prod.fst).Nodup := by
  rw [dictStep_keys]
  split_ifs with hmem
  · exact hnd
  · exact List.Nodup.append hnd (by simp)
      (by intro x hx hx'; simp at hx'; subst hx'; exact hmem hx)

/-- The dict built by the first loop has no duplicate keys. -/
theorem buildByBiz_keys_nodup (rs : List Row) : ((buildByBiz rs).map Prod.fst).Nodup := by
  suffices h : ∀ acc : List (String × List String), (acc.map Prod.fst).Nodup →
      ((rs.foldl reviewStep acc).map Prod.fst).Nodup by
    exact h [] (by simp)
  induction rs with
  | nil => intro acc hacc; exact hacc
  | cons r rest ih =>
    intro acc hacc
    rw [List.foldl_cons]
    apply ih
    unfold reviewStep
    dsimp only
    split_ifs
    · exact hacc
    · exact dictStep_keys_nodup _ _ _ hacc

/-- With duplicate-free keys, a stored entry is found by lookup. -/
theorem assocFind_eq_some_of_mem :
    ∀ {d : List (String × List String)}, (d.map Prod.fst).Nodup →
      ∀ {bid : String} {s : List String}, (bid, s) ∈ d → assocFind bid d = some s := by
  intro d
  induction d with
  | nil => intro _ _ _ hm; cases hm
  | cons kv rest ih =>
    intro hnd bid s hm
    obtain ⟨k, v⟩ := kv
    rcases List.mem_cons.mp hm with heq | hmem
    · obtain ⟨rfl, rfl⟩ := Prod.mk.injEq .. |>.mp heq.symm
      simp [assocFind]
    · have hknd : k ∉ rest.map Prod.fst ∧ (rest.map Prod.fst).Nodup := by
        simpa using hnd
      have hk : ¬ k = bid := by
        intro hkk
        subst hkk
        exact hknd.1 (List.mem_map_of_mem Prod.fst hmem)
      simp only [assocFind, if_neg hk]
      exact ih hknd.2 hmem

/-- A successful lookup comes from a stored entry. -/
theorem assocFind_mem : ∀ {d : List (String × List String)} {bid : String} {s : List String},
    assocFind bid d = some s → (bid, s) ∈ d := by
  intro d
  induction d with
  | nil => intro _ _ h; cases h
  | cons kv rest ih =>
    intro bid s h
    obtain ⟨k, v⟩ := kv
    by_cases hk : k = bid
    · subst hk
      simp only [assocFind, eq_self_iff_true, if_true, Option.some.injEq] at h
      subst h
      exact List.mem_cons_self _ _
    · simp only [assocFind, if_neg hk] at h
      exact List.mem_cons_of_mem _ (ih h)

/-- A business id is flagged exactly when its stored handle set has more
than one element. -/
theorem mem_flaggedBids_iff (rs : List Row) (bid : String) :
    bid ∈ flaggedBids rs ↔ 1 < (lookupSet (buildByBiz rs) bid).length := by
  unfold flaggedBids
  constructor
  · intro hmem
    rcases List.mem_map.mp hmem with ⟨kv, hkv, rfl⟩
    rcases List.mem_filter.mp hkv with ⟨hin, hlen⟩
    obtain ⟨k, v⟩ := kv
    have hfind := assocFind_eq_some_of_mem (buildByBiz_keys_nodup rs) hin
    unfold lookupSet
    rw [hfind]
    simpa using hlen
  · intro hlen
    cases hfind : assocFind bid (buildByBiz rs) with
    | none => simp [lookupSet, hfind] at hlen
    | some s =>
      have hmem := assocFind_mem hfind
      apply List.mem_map.mpr
      refine ⟨(bid, s), List.mem_filter.mpr ⟨hmem, ?_⟩, rfl⟩
      simp only [lookupSet, hfind, Option.getD_some] at hlen
      simpa using hlen

/-- The empty business id never becomes a key. -/
theorem assocFind_empty_bid (rs : List Row) :
    ∀ acc, assocFind "" acc = none → assocFind "" (rs.foldl reviewStep acc) = none := by
  induction rs with
  | nil => intro acc h; exact h
  | cons r rest ih =>
    intro acc h
    rw [List.foldl_cons]
    apply ih
    unfold reviewStep
    dsimp only
    split_ifs with hb
    · exact h
    · rw [assocFind_dictStep_other _ _ _ _ (fun heq => hb heq.symm)]
      exact h

/-- The stored handle set for a non-empty business id is duplicate-free and
has the same members as the batch-level handle list. -/
theorem lookupSet_buildByBiz_spec (rs : List Row) (bid : String) (hbid : bid ≠ "") :
    (lookupSet (buildByBiz rs) bid).Nodup ∧
    ∀ x, x ∈ lookupSet (buildByBiz rs) bid ↔ x ∈ batchHandles rs bid := by
  have h := buildFold_lookupSet bid hbid rs []
  rw [show buildByBiz rs = rs.foldl reviewStep [] from rfl, h]
  constructor
  · exact insAll_nodup _ _ (by simp [lookupSet, assocFind])
  · intro x
    rw [mem_insAll]
    simp [lookupSet, assocFind]

/-- The stored handle-set size equals the number of distinct batch-level
handles. -/
theorem length_lookupSet_eq_dedup (rs : List Row) (bid : String) (hbid : bid ≠ "") :
    (lookupSet (buildByBiz rs) bid).length = (batchHandles rs bid).dedup.length := by
  obtain ⟨hnd, hmem⟩ := lookupSet_buildByBiz_spec rs bid hbid
  have h1 : (lookupSet (buildByBiz rs) bid).toFinset = (batchHandles rs bid).toFinset := by
    ext x
    simp only [List.mem_toFinset]
    exact hmem x
  calc (lookupSet (buildByBiz rs) bid).length
      = (lookupSet (buildByBiz rs) bid).toFinset.card :=
        (List.toFinset_card_of_nodup hnd).symm
    _ = (batchHandles rs bid).toFinset.card := by rw [h1]
    _ = (batchHandles rs bid).dedup.length := List.card_toFinset _

/-- C2: `add_review_flags` marks every row with `FLAG` exactly when the
non-empty (stripped) business id of the row carries more than one distinct
non-empty handle (trimmed, lower-cased) across the whole batch, and with
the empty string otherwise — rows with an empty business id included. -/
theorem add_review_flags_characterization (results : List Row) :
    add_review_flags results =
      results.map (fun r => { r with review := review_flag_spec results r }) := by
  unfold add_review_flags
  apply List.map_congr_left
  intro r _
  have key : (if normField r.business_id ∈ flaggedBids results then "FLAG" else "") =
      review_flag_spec results r := by
    unfold review_flag_spec
    by_cases hb : normField r.business_id = ""
    · rw [hb]
      rw [if_neg, if_neg]
      · rintro ⟨hne, _⟩
        exact hne rfl
      · intro hmem
        rw [mem_flaggedBids_iff] at hmem
        have hnone : assocFind "" (buildByBiz results) = none :=
          assocFind_empty_bid results [] rfl
        simp [lookupSet, hnone] at hmem
    · have hiff : normField r.business_id ∈ flaggedBids results ↔
          1 < (batchHandles results (normField r.business_id)).dedup.length := by
        rw [mem_flaggedBids_iff, length_lookupSet_eq_dedup results _ hb]
      by_cases hlen : 1 < (batchHandles results (normField r.business_id)).dedup.length
      · rw [if_pos (hiff.mpr hlen), if_pos ⟨hb, hlen⟩]
      · rw [if_neg (fun hmem => hlen (hiff.mp hmem)),
          if_neg (by rintro ⟨_, h2⟩; exact hlen h2)]
  rw [key]

end RxMedia
